import Mathlib

/-!
Verification development for the llm-router control/data-plane core.

The Go sources are shallowly embedded: pure fragments become Lean
functions, the per-model gate and the control stream become explicit
state passing, machine integers become `Nat`/`Int` with explicit
wrapping where 64-bit overflow is possible, and the `float64` EWMA is
represented by the exact rational value of the float (the only float
operations the scoring path performs, a comparison with zero and a
conversion to `int64`, are exact on that value).

Go maps are represented as association lists; where the code iterates a
map, the embedding takes the list order as the (unspecified) iteration
order.
-/

/- ### Data model (internal/state/state.go) -/

inductive ModelState where
  | loading
  | ready
  | unloaded
  | error
  deriving DecidableEq, Repr

/-- ModelResidency from internal/state/state.go.  Timestamps are unix
milliseconds as `Int`; the Go zero `time.Time` is represented by `0`
(`unixMsToTime` only ever stores the zero time or a positive ms value). -/
structure ModelResidency where
  modelID : String
  state : ModelState
  loadedSince : Int
  lastSeen : Int
  deriving DecidableEq, Repr

/-- NodeSnapshot from internal/state/state.go, together with the
`DataPlaneURL` field that the later revision of the state store carries
(part_005 and part_012 read `n.DataPlaneURL`; the spec data model lists
the externally reachable data-plane URL on every worker record). -/
structure NodeSnapshot where
  nodeID : String
  version : String
  llamaBaseURL : String
  dataPlaneURL : String
  lastHeartbeat : Int
  ramTotalBytes : Nat
  ramAvailBytes : Nat
  inflightRequests : Nat
  models : List ModelResidency
  deriving DecidableEq, Repr

/-- ModelPolicy from internal/policy/store.go (model_id, ram_required_bytes,
ttl_secs, pinned, priority). -/
structure ModelPolicy where
  modelID : String
  ramRequiredBytes : Nat
  ttlSecs : Int
  pinned : Bool
  priority : Int
  deriving DecidableEq, Repr

/-- The zero value of ModelPolicy; `pol, _, _ := GetPolicy(...)` yields this
record when the store has no row for the model. -/
def ModelPolicy.zero : ModelPolicy :=
  { modelID := "", ramRequiredBytes := 0, ttlSecs := 0, pinned := false, priority := 0 }

/-- A pure view of the policy store: `GetPolicy` as a lookup.  The claims
are settled for error-free store accesses (the Go error branches skip the
entry or fall back to the zero policy). -/
def getPolicyOrZero (pols : String → Option ModelPolicy) (modelID : String) : ModelPolicy :=
  match pols modelID with
  | some pol => pol
  | none => ModelPolicy.zero

/- ### Latency tracker (metrics package), the part scoring reads -/

/-- NodeLatency; only the `EWMAms` field is read by the scoring path, the
counters and last-observation fields are omitted.  The float64 value is
carried as its exact rational value. -/
structure NodeLatency where
  EWMAms : ℚ
  deriving DecidableEq, Repr

/-- LatencyTracker.Get: association-list lookup keyed by node id. -/
def latGet (t : List (String × NodeLatency)) (nodeID : String) : Option NodeLatency :=
  (t.find? (fun e => e.1 = nodeID)).map (·.2)

/- ### 64-bit integer helpers -/

/-- Interpretation of an `Int` as a wrapped signed 64-bit value. -/
def wrap64 (x : Int) : Int :=
  (x + 2 ^ 63) % 2 ^ 64 - 2 ^ 63

/-- Go conversion `int64(u)` for a `uint64` value. -/
def int64OfUInt64 (u : Nat) : Int :=
  wrap64 u

/-- Go conversion `int64(f)` for a `float64` value in range: truncation
toward zero of the exact rational value. -/
def truncToZero (q : ℚ) : Int :=
  if 0 ≤ q then ⌊q⌋ else ⌈q⌉

theorem wrap64_eq_of_bounds (x : Int) (hlo : -(2 ^ 63) ≤ x) (hhi : x < 2 ^ 63) :
    wrap64 x = x := by
  unfold wrap64
  omega

/- ### Scoring (internal/proxy/scoring.go) -/

def inflightPenaltyBytes : Int := 512 * 1024 * 1024

def latencyPenaltyBytesPerMs : Int := 8 * 1024 * 1024

/-- scoreNode from internal/proxy/scoring.go.  `lat = none` models a nil
tracker.  Each `int64` computation that can exceed 64 bits for in-range
Go inputs is wrapped. -/
def scoreNode (n : NodeSnapshot) (lat : Option (List (String × NodeLatency)))
    (p : ModelPolicy) : Int :=
  let ram := int64OfUInt64 n.ramAvailBytes
  if p.ramRequiredBytes > 0 ∧ n.ramAvailBytes < p.ramRequiredBytes then
    -1000000000000000
  else
    let pen : Int := (n.inflightRequests : Int) * inflightPenaltyBytes
    let latPen : Int :=
      match lat with
      | none => 0
      | some t =>
        match latGet t n.nodeID with
        | some l => if 0 < l.EWMAms then wrap64 (truncToZero l.EWMAms * latencyPenaltyBytesPerMs) else 0
        | none => 0
    let affinityBonus : Int :=
      if n.models.any (fun m => m.modelID = p.modelID) then 1024 * 1024 * 1024 else 0
    wrap64 (ram - pen - latPen + affinityBonus)

/-- The loop body of pickBestByScore: the running best node with its
score against the next candidate. -/
def pickBestStep (lat : Option (List (String × NodeLatency))) (p : ModelPolicy)
    (best : Option (NodeSnapshot × Int)) (n : NodeSnapshot) :
    Option (NodeSnapshot × Int) :=
  let s := scoreNode n lat p
  match best with
  | none => some (n, s)
  | some (b, bs) =>
    if s > bs then some (n, s)
    else if s = bs then
      if n.inflightRequests < b.inflightRequests then some (n, s)
      else if n.inflightRequests = b.inflightRequests then
        if n.nodeID < b.nodeID then some (n, s) else some (b, bs)
      else some (b, bs)
    else some (b, bs)

/-- pickBestByScore from internal/proxy/scoring.go: a left fold keeping the
current best node together with its score. -/
def pickBestByScore (nodes : List NodeSnapshot)
    (lat : Option (List (String × NodeLatency))) (p : ModelPolicy) :
    Option NodeSnapshot :=
  (nodes.foldl (pickBestStep lat p) none).map (·.1)

/- ### ACL (internal/auth/auth.go) -/

/-- The fields of APIKeyRecord that placement reads. -/
structure AuthRecord where
  allowedNodes : String
  allowedModels : String
  deriving DecidableEq, Repr

/-- CheckACL from internal/auth/auth.go. -/
def checkACL (allowedStr actualValue : String) : Bool :=
  if allowedStr = "*" ∨ allowedStr = "" then true
  else (allowedStr.splitOn ",").any (fun p => p.trim = actualValue)

/- ### Cluster snapshots -/

/-- Modelled from the spec: `ClusterState.SnapshotOnline(now, ttl)` is called
by the placement entry point (part_005 line 34) but its body is not under
src/ (the state.go revision there predates it).  Per the spec it is the
snapshot filtered to workers whose heartbeat is within the TTL, a worker
being online exactly when `now - last_heartbeat <= offline_TTL`. -/
def snapshotOnline (nodes : List NodeSnapshot) (now ttl : Int) : List NodeSnapshot :=
  nodes.filter (fun n => now - n.lastHeartbeat ≤ ttl)

/- ### Per-model gate (part_003) -/

/-- modelGate: the mutex is implicit in the sequential embedding; the
notify channel is represented by a generation counter, `close` plus
re-`make` being a generation increment that wakes every waiter of the
current generation. -/
structure ModelGate where
  loadingNode : String
  generation : Nat
  deriving DecidableEq, Repr

def ModelGate.initial : ModelGate := { loadingNode := "", generation := 0 }

/-- NotifyModelReady from part_003: clears the loading node and swaps the
notify channel (wakes all current waiters). -/
def notifyModelReady (g : ModelGate) : ModelGate :=
  { loadingNode := "", generation := g.generation + 1 }

/-- NotifyModelState from part_003: only READY does anything. -/
def notifyModelState (st : ModelState) (g : ModelGate) : ModelGate :=
  if st = ModelState.ready then notifyModelReady g else g

/- ### Placement (part_005, the revision the spec describes) -/

inductive PickMode where
  | direct
  | wait
  deriving DecidableEq, Repr

structure PickedNode where
  nodeID : String
  dataPlaneURL : String
  deriving DecidableEq, Repr

/-- Step 0 of pickNodeForModel: the ACL rejection test. -/
def aclDeniedFor (auth : Option AuthRecord) (modelID : String) : Bool :=
  match auth with
  | some a => ! checkACL a.allowedModels modelID
  | none => false

/-- Steps 0b and the online filter of pickNodeForModel: the online
snapshot, additionally filtered by the node ACL when a key record is
attached to the request. -/
def pickSnap (cluster : List NodeSnapshot) (now ttl : Int)
    (auth : Option AuthRecord) : List NodeSnapshot :=
  match auth with
  | some a => (snapshotOnline cluster now ttl).filter (fun n => checkACL a.allowedNodes n.nodeID)
  | none => snapshotOnline cluster now ttl

/-- The residency-READY test of pickNodeForModel step 1. -/
def nodeReadyFor (modelID : String) (n : NodeSnapshot) : Bool :=
  n.models.any (fun m => m.modelID = modelID ∧ m.state = ModelState.ready)

/-- Step 1 of pickNodeForModel: the nodes that report READY and have
announced a data-plane URL. -/
def readyNodesFor (snap : List NodeSnapshot) (modelID : String) : List NodeSnapshot :=
  snap.filter (fun n => n.dataPlaneURL ≠ "" ∧ nodeReadyFor modelID n)

/-- pickNodeForModel from part_005, as a function of the cluster snapshot
inputs and the gate state for the model, returning the outcome together
with the updated gate.  The two `GetPolicy` calls ignore the found flag
and the error, so a missing policy is the zero record. -/
def pickNodeForModel (cluster : List NodeSnapshot) (now ttl : Int)
    (auth : Option AuthRecord) (pols : String → Option ModelPolicy)
    (lat : Option (List (String × NodeLatency))) (modelID : String)
    (g : ModelGate) : Except String (PickedNode × PickMode) × ModelGate :=
  -- 0) ACL check
  if aclDeniedFor auth modelID then
    (Except.error "access to model denied by ACL", g)
  else
    -- Only consider online nodes (ACL-filtered).
    let snap : List NodeSnapshot := pickSnap cluster now ttl auth
    -- 1) If any node reports READY for this model, route to the best one.
    let readyNodes : List NodeSnapshot := readyNodesFor snap modelID
    let pol := getPolicyOrZero pols modelID
    match (if readyNodes.isEmpty then none else pickBestByScore readyNodes lat pol) with
    | some best =>
      (Except.ok ({ nodeID := best.nodeID, dataPlaneURL := best.dataPlaneURL }, PickMode.direct), g)
    | none =>
      -- 2) Gate-based loader coordination.
      match (if g.loadingNode ≠ "" then
               snap.find? (fun n => n.nodeID = g.loadingNode ∧ n.dataPlaneURL ≠ "")
             else none) with
      | some n =>
        (Except.ok ({ nodeID := n.nodeID, dataPlaneURL := n.dataPlaneURL }, PickMode.wait), g)
      | none =>
        -- Loader node went away (or none was set): fall through to 3) with
        -- the loading node cleared.
        let g1 : ModelGate := { g with loadingNode := "" }
        -- 3) Choose best online eligible node by score.
        let eligible := snap.filter (fun n => n.dataPlaneURL ≠ "")
        match pickBestByScore eligible lat pol with
        | none => (Except.error "no nodes available", g1)
        | some best =>
          (Except.ok ({ nodeID := best.nodeID, dataPlaneURL := best.dataPlaneURL }, PickMode.direct),
            { g1 with loadingNode := best.nodeID })

/- ### Readiness wait (part_003) -/

/-- isModelReadyOnNode from part_003, over a cluster snapshot. -/
def isModelReadyOnNode (snap : List NodeSnapshot) (modelID nodeID : String) : Bool :=
  snap.any (fun n =>
    n.nodeID = nodeID ∧ n.models.any (fun m => m.modelID = modelID ∧ m.state = ModelState.ready))

/-- waitModelReady from part_003.  The fast path checks the snapshot taken
at call time; each wake or poll re-snapshots the cluster, represented by
the list `obs` of snapshots observed at those points.  The wait succeeds
exactly when one of those observations sees the model READY on the chosen
node; otherwise the 180 s deadline fires and the wait errors. -/
def waitModelReady (initial : List NodeSnapshot) (obs : List (List NodeSnapshot))
    (modelID nodeID : String) : Bool :=
  isModelReadyOnNode initial modelID nodeID ||
    obs.any (fun s => isModelReadyOnNode s modelID nodeID)

/- ### HTTP front for chat completions (part_004) -/

inductive HandleOutcome where
  /-- 503 service unavailable (placement error or gate timeout). -/
  | unavailable (msg : String)
  /-- The request body is handed to the data plane of the given worker.
  `waited` records whether a gate wait preceded the forward. -/
  | forward (nodeID dataPlaneURL : String) (waited : Bool)
  deriving DecidableEq, Repr

/-- HandleChatCompletions from part_004, from the point where the model id
has been extracted from the body (method and body validation, URL parsing
and the reverse-proxy internals are outside the decision being modelled).
`obs` are the cluster snapshots observed during a gate wait. -/
def handleChatCompletions (cluster : List NodeSnapshot) (now ttl : Int)
    (auth : Option AuthRecord) (pols : String → Option ModelPolicy)
    (lat : Option (List (String × NodeLatency))) (modelID : String)
    (g : ModelGate) (obs : List (List NodeSnapshot)) : HandleOutcome × ModelGate :=
  match pickNodeForModel cluster now ttl auth pols lat modelID g with
  | (Except.error e, g1) => (HandleOutcome.unavailable e, g1)
  | (Except.ok (node, mode), g1) =>
    match mode with
    | PickMode.wait =>
      if waitModelReady cluster obs modelID node.nodeID then
        (HandleOutcome.forward node.nodeID node.dataPlaneURL true, g1)
      else
        (HandleOutcome.unavailable "model is still loading (timeout)", g1)
    | PickMode.direct => (HandleOutcome.forward node.nodeID node.dataPlaneURL false, g1)

/- ### Control stream ingestion (part_012, the revision with the
failed-precondition guard, the ping broadcast and the stream registry) -/

/-- A model residency as carried on the wire in a STATUS message.  The
`ModelState` enum value is its protobuf integer (per the interface:
LOADING=1, READY=2, UNLOADED=3, ERROR=4); any other integer is possible
on the wire. -/
structure WireResidency where
  modelID : String
  state : Int
  loadedSinceUnixMs : Int
  deriving DecidableEq, Repr

structure StatusMsg where
  ramTotalBytes : Nat
  ramAvailableBytes : Nat
  inflightRequests : Nat
  models : List WireResidency
  deriving DecidableEq, Repr

/-- Node-to-router messages of the control stream. -/
inductive NodeMsg where
  | hello (nodeID version llamaBaseURL dataPlaneURL : String)
  | status (st : StatusMsg)
  | ack (requestID : String) (ok : Bool) (err : String)
  | unknown
  deriving DecidableEq, Repr

/-- mapModelState from part_012 (identical in nodecontrol.go): unknown
enum values map to UNLOADED. -/
def mapModelState (st : Int) : ModelState :=
  if st = 1 then ModelState.loading
  else if st = 2 then ModelState.ready
  else if st = 3 then ModelState.unloaded
  else if st = 4 then ModelState.error
  else ModelState.unloaded

/-- unixMsToTime from part_012: non-positive milliseconds become the zero
time (represented by 0). -/
def unixMsToTime (ms : Int) : Int :=
  if ms ≤ 0 then 0 else ms

/-- The cluster store: node records keyed by node id (association list,
unique keys). -/
def upsertNode (nodes : List NodeSnapshot) (nodeID : String)
    (f : NodeSnapshot → NodeSnapshot) : List NodeSnapshot :=
  if nodes.any (fun n => n.nodeID = nodeID) then
    nodes.map (fun n => if n.nodeID = nodeID then f n else n)
  else
    nodes ++ [f { nodeID := nodeID, version := "", llamaBaseURL := "", dataPlaneURL := "",
                  lastHeartbeat := 0, ramTotalBytes := 0, ramAvailBytes := 0,
                  inflightRequests := 0, models := [] }]

/-- Modelled from the spec: the 4-argument revision of
`ClusterState.UpsertNodeHello` called by part_012 (the state.go under
src/ has the 3-argument revision without the data-plane URL); it records
version, the two URLs and refreshes the heartbeat. -/
def upsertNodeHello (nodes : List NodeSnapshot) (now : Int)
    (nodeID version llamaBaseURL dataPlaneURL : String) : List NodeSnapshot :=
  upsertNode nodes nodeID (fun n =>
    { n with version := version, llamaBaseURL := llamaBaseURL,
             dataPlaneURL := dataPlaneURL, lastHeartbeat := now })

/-- ClusterState.UpdateNodeStatus from internal/state/state.go: replaces
RAM totals, inflight count, heartbeat and the whole residency map. -/
def updateNodeStatus (nodes : List NodeSnapshot) (now : Int) (nodeID : String)
    (ramTotal ramAvail : Nat) (inflight : Nat)
    (models : List ModelResidency) : List NodeSnapshot :=
  upsertNode nodes nodeID (fun n =>
    { n with ramTotalBytes := ramTotal, ramAvailBytes := ramAvail,
             inflightRequests := inflight, lastHeartbeat := now, models := models })

/-- The residency record built from a wire entry during STATUS ingestion. -/
def residencyOfWire (now : Int) (m : WireResidency) : ModelResidency :=
  { modelID := m.modelID, state := mapModelState m.state,
    loadedSince := unixMsToTime m.loadedSinceUnixMs, lastSeen := now }

/-- The state a single control stream handler threads through its recv
loop: the node id established by HELLO (empty until then), the cluster
store, and the per-model gates the notifier updates. -/
structure StreamState where
  nodeID : String
  cluster : List NodeSnapshot
  gates : List (String × ModelGate)
  deriving DecidableEq, Repr

/-- Router.getGate: look up the per-model gate, creating it on first use. -/
def gatesGet (gates : List (String × ModelGate)) (modelID : String) : ModelGate :=
  match gates.find? (fun e => e.1 = modelID) with
  | some e => e.2
  | none => ModelGate.initial

def gatesSet (gates : List (String × ModelGate)) (modelID : String)
    (g : ModelGate) : List (String × ModelGate) :=
  if gates.any (fun e => e.1 = modelID) then
    gates.map (fun e => if e.1 = modelID then (e.1, g) else e)
  else
    gates ++ [(modelID, g)]

/-- Router.NotifyModelState applied to the gate map (part_003). -/
def notifyGates (gates : List (String × ModelGate)) (modelID : String)
    (st : ModelState) : List (String × ModelGate) :=
  if st = ModelState.ready then
    gatesSet gates modelID (notifyModelReady (gatesGet gates modelID))
  else gates

inductive StreamError where
  | failedPrecondition
  deriving DecidableEq, Repr

/-- One iteration of the recv loop of NodeControlService.Stream
(part_012 lines 192-286): either the stream continues with an updated
state, or it is closed with an error status.  The stream registry and
logging are not modelled (no claim depends on them). -/
def processMsg (now : Int) (s : StreamState) (msg : NodeMsg) :
    StreamState × Option StreamError :=
  match msg with
  | NodeMsg.hello nodeID version llamaBaseURL dataPlaneURL =>
    ({ s with nodeID := nodeID,
              cluster := upsertNodeHello s.cluster now nodeID version llamaBaseURL dataPlaneURL },
      none)
  | NodeMsg.status st =>
    if s.nodeID = "" then
      -- STATUS before HELLO: close with a failed-precondition status and
      -- touch nothing.
      (s, some StreamError.failedPrecondition)
    else
      let models := st.models.map (residencyOfWire now)
      let gates := st.models.foldl
        (fun gs m => notifyGates gs m.modelID (mapModelState m.state)) s.gates
      ({ s with
          gates := gates,
          cluster := updateNodeStatus s.cluster now s.nodeID
            st.ramTotalBytes st.ramAvailableBytes st.inflightRequests models },
        none)
  | NodeMsg.ack _ _ _ => (s, none)
  | NodeMsg.unknown => (s, none)

/-- The recv loop: process messages until one closes the stream. -/
def runStream (now : Int) (s : StreamState) : List NodeMsg →
    StreamState × Option StreamError
  | [] => (s, none)
  | msg :: rest =>
    match processMsg now s msg with
    | (s1, none) => runStream now s1 rest
    | (s1, some e) => (s1, some e)

/-- The initial state of a stream handler over a given store: no HELLO
processed yet. -/
def initialStream (cluster : List NodeSnapshot) (gates : List (String × ModelGate)) :
    StreamState :=
  { nodeID := "", cluster := cluster, gates := gates }

/- ### Maintenance planner (planner package in internal/activity/log.go) -/

structure UnloadCmd where
  nodeID : String
  modelID : String
  reason : String
  deriving DecidableEq, Repr

/-- The TTL pass of Planner.tick: for each snapshot node with no inflight
requests, each READY residency whose policy has a positive TTL and is not
pinned and whose loaded-since time is known, an unload is requested once
`now - loaded_since` reaches the TTL.  Policy-store errors are not
modelled (the Go error branch skips the entry). -/
def ttlEntry (pols : String → Option ModelPolicy) (now : Int) (nodeID : String)
    (m : ModelResidency) : Option UnloadCmd :=
  if m.state ≠ ModelState.ready then none
  else
    match pols m.modelID with
    | none => none
    | some pol =>
      if pol.ttlSecs ≤ 0 ∨ pol.pinned then none
      else if m.loadedSince = (0 : Int) then none
      else if now - m.loadedSince ≥ pol.ttlSecs * 1000 then
        some { nodeID := nodeID, modelID := m.modelID, reason := "ttl" }
      else none

def tickTTL (pols : String → Option ModelPolicy) (now : Int)
    (nodes : List NodeSnapshot) : List UnloadCmd :=
  nodes.flatMap (fun n =>
    if n.inflightRequests > 0 then []
    else n.models.filterMap (ttlEntry pols now n.nodeID))

/-- An eviction candidate of Planner.handlePressure. -/
structure Cand where
  modelID : String
  score : Int
  loadedSince : Int
  ramBytes : Nat
  deriving DecidableEq, Repr

/-- Candidate construction of Planner.handlePressure: READY and not
pinned; priority and RAM estimate default to zero without a policy row. -/
def buildCands (pols : String → Option ModelPolicy) (n : NodeSnapshot) : List Cand :=
  n.models.filterMap (fun m =>
    if m.state ≠ ModelState.ready then none
    else
      match pols m.modelID with
      | some pol =>
        if pol.pinned then none
        else some { modelID := m.modelID, score := pol.priority,
                    loadedSince := m.loadedSince, ramBytes := pol.ramRequiredBytes }
      | none =>
        some { modelID := m.modelID, score := 0,
               loadedSince := m.loadedSince, ramBytes := 0 })

/-- The sort.Slice comparator of Planner.handlePressure: lowest priority
first, then oldest first, zero loaded-since times sorting last and being
tie-broken by model id among themselves. -/
def candLess (i j : Cand) : Bool :=
  if i.score ≠ j.score then i.score < j.score
  else if i.loadedSince = 0 ∧ j.loadedSince = 0 then i.modelID < j.modelID
  else if i.loadedSince = 0 then false
  else if j.loadedSince = 0 then true
  else i.loadedSince < j.loadedSince

/-- The non-strict order induced by the comparator; the list produced by
the sort is `Sorted` with respect to it. -/
def candLE (a b : Cand) : Prop := candLess b a = false

instance : DecidableRel candLE := fun a b => by
  unfold candLE; infer_instance

/-- The sort of Planner.handlePressure.  Go's sort.Slice leaves the
relative order of comparator-incomparable elements unspecified;
insertion sort (which Go itself uses on small slices) realizes one valid
outcome and is the model used here. -/
def sortCands (l : List Cand) : List Cand :=
  List.insertionSort candLE l

/-- The issue loop of Planner.handlePressure: unload in sorted order,
accumulating the policy RAM estimate, stopping once the accumulator
reaches the need. -/
def issueLoop (nodeID : String) (needBytes : Nat) : Nat → List Cand → List UnloadCmd
  | _, [] => []
  | freed, c :: cs =>
    { nodeID := nodeID, modelID := c.modelID, reason := "pressure" } ::
      (if freed + c.ramBytes ≥ needBytes then []
       else issueLoop nodeID needBytes (freed + c.ramBytes) cs)

/-- Planner.handlePressure. -/
def handlePressure (pols : String → Option ModelPolicy) (n : NodeSnapshot)
    (needBytes : Nat) : List UnloadCmd :=
  issueLoop n.nodeID needBytes 0 (sortCands (buildCands pols n))

/-- The RAM pressure pass of Planner.tick. -/
def tickPressure (pols : String → Option ModelPolicy) (minFreeBytes : Nat)
    (nodes : List NodeSnapshot) : List UnloadCmd :=
  nodes.flatMap (fun n =>
    if minFreeBytes = 0 then []
    else if n.ramAvailBytes ≥ minFreeBytes then []
    else if n.inflightRequests > 0 then []
    else handlePressure pols n (minFreeBytes - n.ramAvailBytes))

/- ### GET /v1/models (internal/proxy/models.go) -/

structure OpenAIModel where
  id : String
  object : String
  ownedBy : String
  created : Int
  deriving DecidableEq, Repr

structure OpenAIModelsResponse where
  object : String
  data : List OpenAIModel
  deriving DecidableEq, Repr

/-- The case-insensitive comparator of ModelsHandler.HandleModels. -/
def lowerLess (a b : String) : Bool := a.toLower < b.toLower

/-- Its induced non-strict order. -/
def lowerLE (a b : String) : Prop := lowerLess b a = false

instance : DecidableRel lowerLE := fun a b => by
  unfold lowerLE; infer_instance

/-- ModelsHandler.HandleModels from internal/proxy/models.go: aggregate
the residency keys of every known worker into a set, sort them with the
case-insensitive comparator, and emit one model entry per id.  The Go set
is a map collected in unspecified order; `dedup` plus insertion sort
realizes one valid outcome. -/
def handleModels (nodes : List NodeSnapshot) (now : Int) : OpenAIModelsResponse :=
  let ids := (nodes.flatMap (fun n => n.models.map (·.modelID))).dedup
  let sorted := List.insertionSort lowerLE ids
  { object := "list",
    data := sorted.map (fun id =>
      { id := id, object := "model", ownedBy := "llm-router", created := now }) }

/- ### Definitions following the claim wording (for refinement
comparisons; these are NOT translations of the source) -/

/-- The score formula as the claim words it: available RAM minus the
inflight and latency penalties plus the affinity bonus, with the OOM
sentinel, all in unbounded integers. -/
def scoreFormulaClaim (n : NodeSnapshot) (lat : Option (List (String × NodeLatency)))
    (p : ModelPolicy) : Int :=
  if p.ramRequiredBytes > 0 ∧ n.ramAvailBytes < p.ramRequiredBytes then
    -1000000000000000
  else
    (n.ramAvailBytes : Int)
      - (n.inflightRequests : Int) * (512 * 1024 * 1024)
      - (match lat with
         | none => 0
         | some t =>
           match latGet t n.nodeID with
           | some l => if 0 < l.EWMAms then truncToZero l.EWMAms * (8 * 1024 * 1024) else 0
           | none => 0)
      + (if n.models.any (fun m => m.modelID = p.modelID) then 1024 * 1024 * 1024 else 0)

/-- The id set of GET /v1/models as claim C9 words it: the union of
residency keys of exactly the workers whose heartbeat is fresh (within
the offline TTL), distinct and sorted case-insensitively. -/
def modelsClaimFreshIDs (nodes : List NodeSnapshot) (now ttl : Int) : List String :=
  let fresh := nodes.filter (fun n => now - n.lastHeartbeat ≤ ttl)
  List.insertionSort lowerLE ((fresh.flatMap (fun n => n.models.map (·.modelID))).dedup)

/- ### Order-theoretic view of pickBestByScore -/

/-- The selection key of pickBestByScore: higher score wins, ties broken
by lower inflight, then by lexicographically lower node id. -/
def nodeKey (lat : Option (List (String × NodeLatency))) (p : ModelPolicy)
    (n : NodeSnapshot) : Int ×ₗ (ℕ ×ₗ String) :=
  toLex (-(scoreNode n lat p), toLex (n.inflightRequests, n.nodeID))

/-- `beats lat p a b`: pickBestByScore prefers `a` over `b`. -/
def beats (lat : Option (List (String × NodeLatency))) (p : ModelPolicy)
    (a b : NodeSnapshot) : Prop :=
  nodeKey lat p a < nodeKey lat p b

instance (lat : Option (List (String × NodeLatency))) (p : ModelPolicy) :
    DecidableRel (beats lat p) := fun a b => by
  unfold beats; infer_instance

theorem beats_iff (lat : Option (List (String × NodeLatency))) (p : ModelPolicy)
    (a b : NodeSnapshot) :
    beats lat p a b ↔
      scoreNode a lat p > scoreNode b lat p ∨
        (scoreNode a lat p = scoreNode b lat p ∧
          (a.inflightRequests < b.inflightRequests ∨
            (a.inflightRequests = b.inflightRequests ∧ a.nodeID < b.nodeID))) := by
  unfold beats nodeKey
  rw [Prod.Lex.lt_iff]
  simp only [Prod.Lex.lt_iff]
  constructor
  · rintro (h | ⟨h1, h2 | ⟨h3, h4⟩⟩)
    · exact Or.inl (by omega)
    · exact Or.inr ⟨by omega, Or.inl h2⟩
    · exact Or.inr ⟨by omega, Or.inr ⟨h3, h4⟩⟩
  · rintro (h | ⟨h1, h2 | ⟨h3, h4⟩⟩)
    · exact Or.inl (by omega)
    · exact Or.inr ⟨by omega, Or.inl h2⟩
    · exact Or.inr ⟨by omega, Or.inr ⟨h3, h4⟩⟩

theorem nodeID_eq_of_nodeKey_eq (lat : Option (List (String × NodeLatency)))
    (p : ModelPolicy) {a b : NodeSnapshot}
    (h : nodeKey lat p a = nodeKey lat p b) : a.nodeID = b.nodeID := by
  unfold nodeKey at h
  have h1 : ((-(scoreNode a lat p), toLex (a.inflightRequests, a.nodeID)) :
      Int × (ℕ ×ₗ String)) = (-(scoreNode b lat p), toLex (b.inflightRequests, b.nodeID)) :=
    congrArg ofLex h
  have h2 : (toLex (a.inflightRequests, a.nodeID) : ℕ ×ₗ String) =
      toLex (b.inflightRequests, b.nodeID) := congrArg Prod.snd h1
  have h3 : ((a.inflightRequests, a.nodeID) : ℕ × String) =
      (b.inflightRequests, b.nodeID) := congrArg ofLex h2
  exact congrArg Prod.snd h3

theorem not_beats_trans (lat : Option (List (String × NodeLatency))) (p : ModelPolicy)
    {a b c : NodeSnapshot} (hab : ¬ beats lat p a b) (hbc : ¬ beats lat p b c) :
    ¬ beats lat p a c := by
  unfold beats at *
  intro hac
  rcases lt_trichotomy (nodeKey lat p a) (nodeKey lat p b) with h | h | h
  · exact hab h
  · exact hbc (h ▸ hac)
  · exact hbc (lt_trans h hac)

/-- The body of pickBestByScore's fold as a two-node choice. -/
def chooseBetter (lat : Option (List (String × NodeLatency))) (p : ModelPolicy)
    (b n : NodeSnapshot) : NodeSnapshot :=
  if beats lat p n b then n else b

theorem pickBestStep_eq (lat : Option (List (String × NodeLatency))) (p : ModelPolicy)
    (b n : NodeSnapshot) :
    pickBestStep lat p (some (b, scoreNode b lat p)) n =
      some (chooseBetter lat p b n, scoreNode (chooseBetter lat p b n) lat p) := by
  have hiff := beats_iff lat p n b
  simp only [pickBestStep, chooseBetter]
  by_cases h1 : scoreNode n lat p > scoreNode b lat p
  · have hb : beats lat p n b := hiff.2 (Or.inl h1)
    simp [h1, hb]
  · by_cases h2 : scoreNode n lat p = scoreNode b lat p
    · by_cases h3 : n.inflightRequests < b.inflightRequests
      · have hb : beats lat p n b := hiff.2 (Or.inr ⟨h2, Or.inl h3⟩)
        simp [h1, h2, h3, hb]
      · by_cases h4 : n.inflightRequests = b.inflightRequests
        · by_cases h5 : n.nodeID < b.nodeID
          · have hb : beats lat p n b := hiff.2 (Or.inr ⟨h2, Or.inr ⟨h4, h5⟩⟩)
            simp [h1, h2, h3, h4, h5, hb]
          · have hnb : ¬ beats lat p n b := by
              intro hb
              rcases hiff.1 hb with h | ⟨_, hc | ⟨_, he⟩⟩
              · exact h1 h
              · exact h3 hc
              · exact h5 he
            simp [h1, h2, h3, h4, h5, hnb]
        · have hnb : ¬ beats lat p n b := by
            intro hb
            rcases hiff.1 hb with h | ⟨_, hc | ⟨hd, _⟩⟩
            · exact h1 h
            · exact h3 hc
            · exact h4 hd
          simp [h1, h2, h3, h4, hnb]
    · have hnb : ¬ beats lat p n b := by
        intro hb
        rcases hiff.1 hb with h | ⟨hh, _⟩
        · exact h1 h
        · exact h2 hh
      simp [h1, h2, hnb]

theorem pickBest_go (lat : Option (List (String × NodeLatency))) (p : ModelPolicy) :
    ∀ (t : List NodeSnapshot) (b : NodeSnapshot),
      t.foldl (pickBestStep lat p) (some (b, scoreNode b lat p)) =
        some (t.foldl (chooseBetter lat p) b,
          scoreNode (t.foldl (chooseBetter lat p) b) lat p)
  | [], _ => rfl
  | n :: t, b => by
    rw [List.foldl_cons, List.foldl_cons, pickBestStep_eq]
    exact pickBest_go lat p t (chooseBetter lat p b n)

/-- pickBestByScore, restated as a fold of the two-node choice. -/
theorem pickBestByScore_eq (lat : Option (List (String × NodeLatency)))
    (p : ModelPolicy) :
    ∀ l : List NodeSnapshot,
      pickBestByScore l lat p =
        match l with
        | [] => none
        | b :: t => some (t.foldl (chooseBetter lat p) b)
  | [] => rfl
  | b :: t => by
    unfold pickBestByScore
    rw [List.foldl_cons]
    have : pickBestStep lat p none b = some (b, scoreNode b lat p) := rfl
    rw [this, pickBest_go]
    rfl

theorem chooseFold_mem (lat : Option (List (String × NodeLatency))) (p : ModelPolicy) :
    ∀ (t : List NodeSnapshot) (b : NodeSnapshot),
      t.foldl (chooseBetter lat p) b ∈ b :: t
  | [], _ => List.mem_singleton.2 rfl
  | n :: t, b => by
    rw [List.foldl_cons]
    have h := chooseFold_mem lat p t (chooseBetter lat p b n)
    unfold chooseBetter at h ⊢
    by_cases hb : beats lat p n b <;> simp only [hb, if_true, if_false] at h ⊢ <;>
      rcases List.mem_cons.1 h with h1 | h1 <;> simp [h1]

theorem chooseFold_not_beaten (lat : Option (List (String × NodeLatency)))
    (p : ModelPolicy) :
    ∀ (t : List NodeSnapshot) (b : NodeSnapshot) (x : NodeSnapshot),
      x ∈ b :: t → ¬ beats lat p x (t.foldl (chooseBetter lat p) b)
  | [], b, x, hx => by
    simp only [List.foldl_nil]
    rcases List.mem_cons.1 hx with h | h
    · subst h; exact lt_irrefl _
    · exact absurd h (List.not_mem_nil x)
  | n :: t, b, x, hx => by
    rw [List.foldl_cons]
    have hmem : x ∈ b :: n :: t := hx
    by_cases hb : beats lat p n b
    · have hcb : chooseBetter lat p b n = n := if_pos hb
      rw [hcb]
      rcases List.mem_cons.1 hmem with h1 | h1
      · rw [h1]
        have hn : ¬ beats lat p n (t.foldl (chooseBetter lat p) n) :=
          chooseFold_not_beaten lat p t n n (List.mem_cons_self n t)
        have hbn : ¬ beats lat p b n := fun h => (lt_asymm h) hb
        exact not_beats_trans lat p hbn hn
      · exact chooseFold_not_beaten lat p t n x h1
    · have hcb : chooseBetter lat p b n = b := if_neg hb
      rw [hcb]
      rcases List.mem_cons.1 hmem with h1 | h1
      · rw [h1]
        exact chooseFold_not_beaten lat p t b b (List.mem_cons_self b t)
      · rcases List.mem_cons.1 h1 with h2 | h2
        · rw [h2]
          have hbres : ¬ beats lat p b (t.foldl (chooseBetter lat p) b) :=
            chooseFold_not_beaten lat p t b b (List.mem_cons_self b t)
          exact not_beats_trans lat p hb hbres
        · exact chooseFold_not_beaten lat p t b x (List.mem_cons.2 (Or.inr h2))

/-- pickBestByScore returns a member of its candidate list. -/
theorem pickBestByScore_mem (lat : Option (List (String × NodeLatency)))
    (p : ModelPolicy) (l : List NodeSnapshot) (m : NodeSnapshot)
    (h : pickBestByScore l lat p = some m) : m ∈ l := by
  rw [pickBestByScore_eq] at h
  cases l with
  | nil => exact absurd h (by simp)
  | cons b t =>
    have := chooseFold_mem lat p t b
    simp only [Option.some.injEq] at h
    rw [h] at this
    exact this

/-- The worker pickBestByScore returns is never beaten by a candidate. -/
theorem pickBestByScore_not_beaten (lat : Option (List (String × NodeLatency)))
    (p : ModelPolicy) (l : List NodeSnapshot) (m : NodeSnapshot)
    (h : pickBestByScore l lat p = some m) :
    ∀ x ∈ l, ¬ beats lat p x m := by
  rw [pickBestByScore_eq] at h
  cases l with
  | nil => exact absurd h (by simp)
  | cons b t =>
    intro x hx
    simp only [Option.some.injEq] at h
    rw [← h]
    exact chooseFold_not_beaten lat p t b x hx

theorem pickBestByScore_none_iff (lat : Option (List (String × NodeLatency)))
    (p : ModelPolicy) (l : List NodeSnapshot) :
    pickBestByScore l lat p = none ↔ l = [] := by
  rw [pickBestByScore_eq]
  cases l <;> simp

theorem nodeID_eq_of_unbeaten (lat : Option (List (String × NodeLatency)))
    (p : ModelPolicy) {a b : NodeSnapshot}
    (hab : ¬ beats lat p a b) (hba : ¬ beats lat p b a) :
    a.nodeID = b.nodeID := by
  have hk : nodeKey lat p a = nodeKey lat p b :=
    le_antisymm (le_of_not_lt hba) (le_of_not_lt hab)
  exact nodeID_eq_of_nodeKey_eq lat p hk

theorem eq_of_mem_same_nodeID :
    ∀ (l : List NodeSnapshot), (l.map (·.nodeID)).Nodup →
      ∀ {x y : NodeSnapshot}, x ∈ l → y ∈ l → x.nodeID = y.nodeID → x = y
  | [], _, _, _, hx, _, _ => absurd hx (List.not_mem_nil _)
  | a :: t, hnodup, x, y, hx, hy, hid => by
    rw [List.map_cons, List.nodup_cons] at hnodup
    rcases List.mem_cons.1 hx with hx1 | hx1 <;> rcases List.mem_cons.1 hy with hy1 | hy1
    · rw [hx1, hy1]
    · exfalso
      apply hnodup.1
      have : a.nodeID = y.nodeID := by rw [← hx1]; exact hid
      exact List.mem_map.2 ⟨y, hy1, this.symm⟩
    · exfalso
      apply hnodup.1
      have : a.nodeID = x.nodeID := by rw [← hy1]; exact hid.symm
      exact List.mem_map.2 ⟨x, hx1, this.symm⟩
    · exact eq_of_mem_same_nodeID t hnodup.2 hx1 hy1 hid

/-- C8: pickBestByScore is deterministic and enumeration-order
independent: over any fixed candidate set with pairwise distinct node
ids, any two permutations of the candidates yield the same winner, and
the winner is a candidate with the highest score, ties broken by lower
inflight count and then by lexicographically lower node id. -/
theorem pickBestByScore_deterministic (l1 l2 : List NodeSnapshot)
    (lat : Option (List (String × NodeLatency))) (p : ModelPolicy)
    (hperm : l1.Perm l2) (hnodup : (l1.map (·.nodeID)).Nodup) :
    pickBestByScore l1 lat p = pickBestByScore l2 lat p ∧
      (∀ m, pickBestByScore l1 lat p = some m →
        m ∈ l1 ∧ ∀ x ∈ l1, x.nodeID ≠ m.nodeID →
          (scoreNode m lat p > scoreNode x lat p ∨
            (scoreNode m lat p = scoreNode x lat p ∧
              (m.inflightRequests < x.inflightRequests ∨
                (m.inflightRequests = x.inflightRequests ∧ m.nodeID < x.nodeID))))) := by
  have hchar : ∀ m, pickBestByScore l1 lat p = some m →
      m ∈ l1 ∧ ∀ x ∈ l1, x.nodeID ≠ m.nodeID →
        (scoreNode m lat p > scoreNode x lat p ∨
          (scoreNode m lat p = scoreNode x lat p ∧
            (m.inflightRequests < x.inflightRequests ∨
              (m.inflightRequests = x.inflightRequests ∧ m.nodeID < x.nodeID)))) := by
    intro m hm
    have hmem := pickBestByScore_mem lat p l1 m hm
    refine ⟨hmem, fun x hx hne => ?_⟩
    have hxm : ¬ beats lat p x m := pickBestByScore_not_beaten lat p l1 m hm x hx
    by_cases hmx : beats lat p m x
    · exact (beats_iff lat p m x).1 hmx
    · exact absurd (nodeID_eq_of_unbeaten lat p hmx hxm) (Ne.symm hne)
  refine ⟨?_, hchar⟩
  cases h1 : pickBestByScore l1 lat p with
  | none =>
    have he : l1 = [] := (pickBestByScore_none_iff lat p l1).1 h1
    have he2 : l2 = [] := List.Perm.eq_nil (he ▸ hperm).symm
    rw [he2, (pickBestByScore_none_iff lat p []).2 rfl]
  | some m1 =>
    cases h2 : pickBestByScore l2 lat p with
    | none =>
      have he : l2 = [] := (pickBestByScore_none_iff lat p l2).1 h2
      have : l1 = [] := List.Perm.eq_nil (he ▸ hperm.symm).symm
      rw [this] at h1
      exact absurd h1 (by rw [(pickBestByScore_none_iff lat p []).2 rfl]; simp)
    | some m2 =>
      have hm1 := pickBestByScore_mem lat p l1 m1 h1
      have hm2 := pickBestByScore_mem lat p l2 m2 h2
      have hm2l1 : m2 ∈ l1 := hperm.symm.subset hm2
      have hm1l2 : m1 ∈ l2 := hperm.subset hm1
      have hne1 : ¬ beats lat p m2 m1 :=
        pickBestByScore_not_beaten lat p l1 m1 h1 m2 hm2l1
      have hne2 : ¬ beats lat p m1 m2 :=
        pickBestByScore_not_beaten lat p l2 m2 h2 m1 hm1l2
      have hid : m1.nodeID = m2.nodeID := nodeID_eq_of_unbeaten lat p hne2 hne1
      have : m1 = m2 := eq_of_mem_same_nodeID l1 hnodup hm1 hm2l1 hid
      rw [this]

def wNodeA : NodeSnapshot :=
  { nodeID := "a", version := "1", llamaBaseURL := "http://la", dataPlaneURL := "http://da",
    lastHeartbeat := 0, ramTotalBytes := 16, ramAvailBytes := 8, inflightRequests := 0,
    models := [] }

def wNodeB : NodeSnapshot :=
  { nodeID := "b", version := "1", llamaBaseURL := "http://lb", dataPlaneURL := "http://db",
    lastHeartbeat := 0, ramTotalBytes := 16, ramAvailBytes := 4, inflightRequests := 0,
    models := [] }

theorem pickBestByScore_deterministic_witness :
    pickBestByScore [wNodeA, wNodeB] none ModelPolicy.zero =
      pickBestByScore [wNodeB, wNodeA] none ModelPolicy.zero :=
  (pickBestByScore_deterministic [wNodeA, wNodeB] [wNodeB, wNodeA] none ModelPolicy.zero
    (by decide) (by decide)).1

theorem int64OfUInt64_eq (u : Nat) (h : u < 2 ^ 63) :
    int64OfUInt64 u = (u : Int) := by
  unfold int64OfUInt64
  apply wrap64_eq_of_bounds <;> omega

theorem scoreNode_formula_aux (n : NodeSnapshot)
    (lat : Option (List (String × NodeLatency))) (p : ModelPolicy)
    (hram : n.ramAvailBytes < 2 ^ 62)
    (hinf : n.inflightRequests < 2 ^ 32)
    (hew : ∀ t l, lat = some t → latGet t n.nodeID = some l → l.EWMAms < 2 ^ 32) :
    scoreNode n lat p = scoreFormulaClaim n lat p := by
  unfold scoreNode scoreFormulaClaim
  by_cases hoom : p.ramRequiredBytes > 0 ∧ n.ramAvailBytes < p.ramRequiredBytes
  · rw [if_pos hoom, if_pos hoom]
  · rw [if_neg hoom, if_neg hoom]
    have hram2 : int64OfUInt64 n.ramAvailBytes = (n.ramAvailBytes : Int) :=
      int64OfUInt64_eq _ (by omega)
    have hpen0 : (0 : Int) ≤ (n.inflightRequests : Int) * inflightPenaltyBytes :=
      mul_nonneg (Int.natCast_nonneg _) (by norm_num [inflightPenaltyBytes])
    have hpen1 : (n.inflightRequests : Int) * inflightPenaltyBytes ≤
        2 ^ 32 * inflightPenaltyBytes := by
      apply mul_le_mul_of_nonneg_right _ (by norm_num [inflightPenaltyBytes])
      omega
    have haff : (if n.models.any (fun m => m.modelID = p.modelID) then
        (1024 * 1024 * 1024 : Int) else 0) = 0 ∨
        (if n.models.any (fun m => m.modelID = p.modelID) then
        (1024 * 1024 * 1024 : Int) else 0) = 1024 * 1024 * 1024 := by
      split_ifs <;> simp
    cases lat with
    | none =>
      simp only [hram2]
      apply wrap64_eq_of_bounds <;>
        rcases haff with h | h <;> rw [h] <;>
        simp only [inflightPenaltyBytes] at hpen0 hpen1 ⊢ <;> omega
    | some t =>
      cases hg : latGet t n.nodeID with
      | none =>
        simp only [hram2, hg]
        apply wrap64_eq_of_bounds <;>
          rcases haff with h | h <;> rw [h] <;>
          simp only [inflightPenaltyBytes] at hpen0 hpen1 ⊢ <;> omega
      | some l =>
        by_cases hpos : 0 < l.EWMAms
        · have hq : l.EWMAms < ((2 ^ 32 : Int) : ℚ) := by
            have := hew t l rfl hg
            exact_mod_cast this
          have htr : truncToZero l.EWMAms = ⌊l.EWMAms⌋ := if_pos (le_of_lt hpos)
          have htr0 : (0 : Int) ≤ truncToZero l.EWMAms := by
            rw [htr]; exact Int.floor_nonneg.2 (le_of_lt hpos)
          have htr1 : truncToZero l.EWMAms < 2 ^ 32 := by
            rw [htr]; exact Int.floor_lt.2 hq
          have hinner : wrap64 (truncToZero l.EWMAms * latencyPenaltyBytesPerMs) =
              truncToZero l.EWMAms * latencyPenaltyBytesPerMs := by
            apply wrap64_eq_of_bounds <;>
              simp only [latencyPenaltyBytesPerMs] <;> nlinarith
          simp only [hram2, hg, if_pos hpos, hinner]
          apply wrap64_eq_of_bounds <;>
            rcases haff with h | h <;> rw [h] <;>
            simp only [inflightPenaltyBytes, latencyPenaltyBytesPerMs] at hpen0 hpen1 htr0 htr1 ⊢ <;> omega
        · simp only [hram2, hg, if_neg hpos]
          apply wrap64_eq_of_bounds <;>
            rcases haff with h | h <;> rw [h] <;>
            simp only [inflightPenaltyBytes] at hpen0 hpen1 ⊢ <;> omega

def wLat : List (String × NodeLatency) := [("a", { EWMAms := (5 : ℚ) / 2 })]

def wNodeC : NodeSnapshot :=
  { nodeID := "a", version := "1", llamaBaseURL := "http://la", dataPlaneURL := "http://da",
    lastHeartbeat := 0, ramTotalBytes := 8589934592, ramAvailBytes := 8589934592,
    inflightRequests := 1,
    models := [{ modelID := "m1", state := ModelState.ready, loadedSince := 7, lastSeen := 9 }] }

def wPolC : ModelPolicy :=
  { modelID := "m1", ramRequiredBytes := 1073741824, ttlSecs := 0, pinned := false, priority := 0 }

/-- C3: for inputs in the ranges the worker protocol can produce
(available RAM below 2^62 bytes, inflight a uint32 value, EWMA below 2^32
milliseconds, so that no 64-bit overflow occurs), scoreNode computes
exactly the claimed formula: available RAM minus 512 MiB per inflight
request, minus 8 MiB per (truncated) EWMA millisecond when a latency
record with positive EWMA exists, plus a 1 GiB bonus when the model id is
a residency key, all overridden by the -1e15 sentinel when the policy
declares a RAM requirement the worker cannot fit. -/
theorem scoreNode_matches_spec_formula (n : NodeSnapshot)
    (lat : Option (List (String × NodeLatency))) (p : ModelPolicy)
    (hram : n.ramAvailBytes < 2 ^ 62)
    (hinf : n.inflightRequests < 2 ^ 32)
    (hew : ∀ t l, lat = some t → latGet t n.nodeID = some l → l.EWMAms < 2 ^ 32) :
    scoreNode n lat p = scoreFormulaClaim n lat p :=
  scoreNode_formula_aux n lat p hram hinf hew

theorem scoreNode_matches_spec_formula_witness :
    scoreNode wNodeC (some wLat) wPolC = scoreFormulaClaim wNodeC (some wLat) wPolC :=
  scoreNode_matches_spec_formula wNodeC (some wLat) wPolC
    (by norm_num [wNodeC]) (by norm_num [wNodeC])
    (by
      intro t l ht hl
      cases ht
      simp only [wLat, wNodeC, latGet, List.find?] at hl
      norm_num at hl
      rw [← hl]
      norm_num)

/-- C10: a STATUS residency whose wire ModelState value is not LOADING=1,
READY=2, UNLOADED=3 or ERROR=4 is recorded with state UNLOADED; it never
counts as READY for placement, never wakes gate waiters, but its model id
is still a residency key, so the worker still receives the 1 GiB scoring
affinity bonus (bounds as for the scoring theorem exclude 64-bit
overflow). -/
theorem unknown_state_maps_unloaded (v : Int)
    (hv : v ≠ 1 ∧ v ≠ 2 ∧ v ≠ 3 ∧ v ≠ 4)
    (g : ModelGate) (now : Int) (w : WireResidency) (hw : w.state = v)
    (n : NodeSnapshot) (hn : n.models = [residencyOfWire now w])
    (lat : Option (List (String × NodeLatency))) (p : ModelPolicy)
    (hp : p.modelID = w.modelID)
    (hram : n.ramAvailBytes < 2 ^ 62)
    (hinf : n.inflightRequests < 2 ^ 32)
    (hew : ∀ t l, lat = some t → latGet t n.nodeID = some l → l.EWMAms < 2 ^ 32)
    (hoom : ¬ (p.ramRequiredBytes > 0 ∧ n.ramAvailBytes < p.ramRequiredBytes)) :
    mapModelState v = ModelState.unloaded ∧
      (residencyOfWire now w).state = ModelState.unloaded ∧
      notifyModelState (mapModelState v) g = g ∧
      nodeReadyFor w.modelID n = false ∧
      isModelReadyOnNode [n] w.modelID n.nodeID = false ∧
      scoreNode n lat p =
        scoreNode { n with models := [] } lat p + 1024 * 1024 * 1024 := by
  obtain ⟨h1, h2, h3, h4⟩ := hv
  have hmap : mapModelState v = ModelState.unloaded := by
    simp [mapModelState, h1, h2, h3, h4]
  have hres : (residencyOfWire now w).state = ModelState.unloaded := by
    simp [residencyOfWire, hw, hmap]
  have hnready : nodeReadyFor w.modelID n = false := by
    simp only [nodeReadyFor, hn, List.any_cons, List.any_nil, Bool.or_false]
    simp [residencyOfWire, hw, hmap]
  refine ⟨hmap, hres, ?_, hnready, ?_, ?_⟩
  · simp [notifyModelState, hmap]
  · simp only [isModelReadyOnNode, List.any_cons, List.any_nil, Bool.or_false]
    simp [hn, residencyOfWire, hw, hmap]
  · have hb : n.models.any (fun m => m.modelID = p.modelID) = true := by
      simp [hn, residencyOfWire, hp]
    have hb2 : ({ n with models := [] } : NodeSnapshot).models.any
        (fun m => m.modelID = p.modelID) = false := by simp
    rw [scoreNode_formula_aux n lat p hram hinf hew,
        scoreNode_formula_aux { n with models := [] } lat p hram hinf hew]
    unfold scoreFormulaClaim
    rw [if_neg hoom, if_neg hoom, hb, hb2]
    simp

def wWire : WireResidency := { modelID := "m1", state := 7, loadedSinceUnixMs := 123 }

def wNodeD : NodeSnapshot :=
  { nodeID := "d", version := "1", llamaBaseURL := "http://ld", dataPlaneURL := "http://dd",
    lastHeartbeat := 0, ramTotalBytes := 4096, ramAvailBytes := 4096, inflightRequests := 0,
    models := [residencyOfWire 50 wWire] }

def wPolD : ModelPolicy :=
  { modelID := "m1", ramRequiredBytes := 0, ttlSecs := 0, pinned := false, priority := 0 }

theorem unknown_state_maps_unloaded_witness :
    mapModelState 7 = ModelState.unloaded ∧
      (residencyOfWire 50 wWire).state = ModelState.unloaded ∧
      notifyModelState (mapModelState 7) ModelGate.initial = ModelGate.initial ∧
      nodeReadyFor wWire.modelID wNodeD = false ∧
      isModelReadyOnNode [wNodeD] wWire.modelID wNodeD.nodeID = false ∧
      scoreNode wNodeD none wPolD =
        scoreNode { wNodeD with models := [] } none wPolD + 1024 * 1024 * 1024 :=
  unknown_state_maps_unloaded 7 (by decide) ModelGate.initial 50 wWire rfl wNodeD rfl
    none wPolD rfl (by norm_num [wNodeD]) (by norm_num [wNodeD])
    (fun t l ht _ => nomatch ht) (by simp [wPolD])

/-- C7: if a STATUS arrives on a control stream before any HELLO has been
processed on that stream (only ACKs or unknown messages preceded it), the
stream is closed with a failed-precondition error and the stream state --
in particular the cluster store -- is exactly what it was at stream start:
no worker record is created or modified. -/
theorem status_before_hello_closes_stream (cluster : List NodeSnapshot)
    (gates : List (String × ModelGate)) (now : Int) (pre : List NodeMsg)
    (hpre : ∀ m ∈ pre, (∀ a b c d, m ≠ NodeMsg.hello a b c d) ∧
      (∀ st, m ≠ NodeMsg.status st))
    (st : StatusMsg) (rest : List NodeMsg) :
    runStream now (initialStream cluster gates) (pre ++ NodeMsg.status st :: rest) =
      (initialStream cluster gates, some StreamError.failedPrecondition) := by
  induction pre with
  | nil =>
    simp only [List.nil_append]
    show runStream now (initialStream cluster gates) (NodeMsg.status st :: rest) = _
    unfold runStream processMsg initialStream
    simp
  | cons m pre ih =>
    have hm := hpre m (List.mem_cons_self m pre)
    have hrest : ∀ x ∈ pre, (∀ a b c d, x ≠ NodeMsg.hello a b c d) ∧
        (∀ s, x ≠ NodeMsg.status s) :=
      fun x hx => hpre x (List.mem_cons.2 (Or.inr hx))
    cases m with
    | hello a b c d => exact absurd rfl (hm.1 a b c d)
    | status s => exact absurd rfl (hm.2 s)
    | ack r o e =>
      rw [List.cons_append]
      show runStream now (initialStream cluster gates) _ = _
      unfold runStream
      simp only [processMsg]
      exact ih hrest
    | unknown =>
      rw [List.cons_append]
      unfold runStream
      simp only [processMsg]
      exact ih hrest

theorem status_before_hello_closes_stream_witness :
    runStream 50 (initialStream [wNodeA] [])
        [NodeMsg.ack "r1" true "", NodeMsg.unknown,
         NodeMsg.status { ramTotalBytes := 1, ramAvailableBytes := 1,
                          inflightRequests := 0, models := [] }] =
      (initialStream [wNodeA] [], some StreamError.failedPrecondition) :=
  status_before_hello_closes_stream [wNodeA] [] 50
    [NodeMsg.ack "r1" true "", NodeMsg.unknown]
    (by
      intro m hm
      rcases List.mem_cons.1 hm with h | h
      · subst h; exact ⟨fun a b c d => by simp, fun s => by simp⟩
      · rcases List.mem_cons.1 h with h2 | h2
        · subst h2; exact ⟨fun a b c d => by simp, fun s => by simp⟩
        · exact absurd h2 (List.not_mem_nil m))
    { ramTotalBytes := 1, ramAvailableBytes := 1, inflightRequests := 0, models := [] }
    []

theorem eq_of_mem_same_modelID :
    ∀ (l : List ModelResidency), (l.map (·.modelID)).Nodup →
      ∀ {x y : ModelResidency}, x ∈ l → y ∈ l → x.modelID = y.modelID → x = y
  | [], _, _, _, hx, _, _ => absurd hx (List.not_mem_nil _)
  | a :: t, hnodup, x, y, hx, hy, hid => by
    rw [List.map_cons, List.nodup_cons] at hnodup
    rcases List.mem_cons.1 hx with hx1 | hx1 <;> rcases List.mem_cons.1 hy with hy1 | hy1
    · rw [hx1, hy1]
    · exfalso
      apply hnodup.1
      have : a.modelID = y.modelID := by rw [← hx1]; exact hid
      exact List.mem_map.2 ⟨y, hy1, this.symm⟩
    · exfalso
      apply hnodup.1
      have : a.modelID = x.modelID := by rw [← hy1]; exact hid.symm
      exact List.mem_map.2 ⟨x, hx1, this.symm⟩
    · exact eq_of_mem_same_modelID t hnodup.2 hx1 hy1 hid

theorem ttlEntry_some_iff (pols : String → Option ModelPolicy) (now : Int)
    (nodeID : String) (m : ModelResidency) (c : UnloadCmd) :
    ttlEntry pols now nodeID m = some c ↔
      m.state = ModelState.ready ∧
        ∃ pol, pols m.modelID = some pol ∧ pol.ttlSecs > 0 ∧ pol.pinned = false ∧
          m.loadedSince ≠ 0 ∧ now - m.loadedSince ≥ pol.ttlSecs * 1000 ∧
          c = { nodeID := nodeID, modelID := m.modelID, reason := "ttl" } := by
  by_cases hst : m.state = ModelState.ready
  · cases hp : pols m.modelID with
    | none => simp [ttlEntry, hst, hp]
    | some pol =>
      have hred : ttlEntry pols now nodeID m =
          (if pol.ttlSecs ≤ 0 ∨ pol.pinned then none
           else if m.loadedSince = (0 : Int) then none
           else if now - m.loadedSince ≥ pol.ttlSecs * 1000 then
             some { nodeID := nodeID, modelID := m.modelID, reason := "ttl" }
           else none) := by
        unfold ttlEntry
        rw [if_neg (by simp [hst]), hp]
      rw [hred]
      constructor
      · intro h
        by_cases h1 : pol.ttlSecs ≤ 0 ∨ pol.pinned = true
        · rw [if_pos h1] at h; exact absurd h (by simp)
        · rw [if_neg h1] at h
          by_cases h2 : m.loadedSince = (0 : Int)
          · rw [if_pos h2] at h; exact absurd h (by simp)
          · rw [if_neg h2] at h
            by_cases h3 : now - m.loadedSince ≥ pol.ttlSecs * 1000
            · rw [if_pos h3] at h
              have hc := (Option.some.inj h).symm
              push_neg at h1
              exact ⟨hst, pol, rfl, by omega, by simpa using h1.2, h2, h3, hc⟩
            · rw [if_neg h3] at h; exact absurd h (by simp)
      · rintro ⟨-, pol2, hp2, httl, hpin, hls, hcond, hc⟩
        cases Option.some.inj hp2
        rw [if_neg (by push_neg; exact ⟨by omega, by simp [hpin]⟩), if_neg hls,
          if_pos hcond, hc]
  · constructor
    · intro h
      exfalso
      unfold ttlEntry at h
      rw [if_pos (by simp [hst])] at h
      exact absurd h (by simp)
    · rintro ⟨h, -⟩
      exact absurd h hst

/-- C5: in the planner TTL pass, for a worker with zero inflight requests
and a READY residency whose policy exists with positive ttl_secs and is
not pinned, an unload command with reason "ttl" is issued if and only if
the residency has a non-zero loaded_since and now - loaded_since has
reached the TTL; a zero loaded_since disables the check. -/
theorem ttl_pass_iff (pols : String → Option ModelPolicy) (now : Int)
    (nodes : List NodeSnapshot) (n : NodeSnapshot) (m : ModelResidency)
    (pol : ModelPolicy)
    (hn : n ∈ nodes) (hnodup : (nodes.map (·.nodeID)).Nodup)
    (hmodels : (n.models.map (·.modelID)).Nodup)
    (hm : m ∈ n.models) (hinf : n.inflightRequests = 0)
    (hst : m.state = ModelState.ready)
    (hpol : pols m.modelID = some pol) (httl : pol.ttlSecs > 0)
    (hpin : pol.pinned = false) :
    ({ nodeID := n.nodeID, modelID := m.modelID, reason := "ttl" } : UnloadCmd) ∈
        tickTTL pols now nodes ↔
      (m.loadedSince ≠ 0 ∧ now - m.loadedSince ≥ pol.ttlSecs * 1000) := by
  unfold tickTTL
  rw [List.mem_flatMap]
  constructor
  · rintro ⟨n2, hn2, hcmd⟩
    by_cases hi : n2.inflightRequests > 0
    · rw [if_pos hi] at hcmd
      exact absurd hcmd (List.not_mem_nil _)
    · rw [if_neg hi] at hcmd
      obtain ⟨m2, hm2, he⟩ := List.mem_filterMap.1 hcmd
      obtain ⟨hst2, pol2, hpol2, httl2, hpin2, hls2, hcond2, hc2⟩ :=
        (ttlEntry_some_iff pols now n2.nodeID m2 _).1 he
      have hnid : n2.nodeID = n.nodeID := congrArg UnloadCmd.nodeID hc2.symm
      have hn2n : n2 = n := eq_of_mem_same_nodeID nodes hnodup hn2 hn hnid
      subst hn2n
      have hmid : m2.modelID = m.modelID := congrArg UnloadCmd.modelID hc2.symm
      have hm2m : m2 = m := eq_of_mem_same_modelID n2.models hmodels hm2 hm hmid
      subst hm2m
      rw [hpol] at hpol2
      cases Option.some.inj hpol2
      exact ⟨hls2, hcond2⟩
  · rintro ⟨hls, hcond⟩
    refine ⟨n, hn, ?_⟩
    rw [if_neg (by omega)]
    exact List.mem_filterMap.2
      ⟨m, hm, (ttlEntry_some_iff pols now n.nodeID m _).2
        ⟨hst, pol, hpol, httl, hpin, hls, hcond, rfl⟩⟩

def wResM4 : ModelResidency :=
  { modelID := "m4", state := ModelState.ready, loadedSince := 1000, lastSeen := 0 }

def wNodeE : NodeSnapshot :=
  { nodeID := "e", version := "1", llamaBaseURL := "http://le", dataPlaneURL := "http://de",
    lastHeartbeat := 121000, ramTotalBytes := 4096, ramAvailBytes := 4096,
    inflightRequests := 0, models := [wResM4] }

def wPolM4 : ModelPolicy :=
  { modelID := "m4", ramRequiredBytes := 0, ttlSecs := 60, pinned := false, priority := 0 }

def wPolsM4 : String → Option ModelPolicy := fun id =>
  if id = "m4" then some wPolM4 else none

theorem ttl_pass_iff_witness :
    ({ nodeID := wNodeE.nodeID, modelID := wResM4.modelID, reason := "ttl" } : UnloadCmd) ∈
        tickTTL wPolsM4 121000 [wNodeE] ↔
      (wResM4.loadedSince ≠ 0 ∧ 121000 - wResM4.loadedSince ≥ wPolM4.ttlSecs * 1000) :=
  ttl_pass_iff wPolsM4 121000 [wNodeE] wNodeE wResM4 wPolM4
    (by simp) (by simp) (by simp [wNodeE, wResM4]) (by simp [wNodeE])
    (by simp [wNodeE]) (by simp [wResM4]) (by simp [wPolsM4, wResM4])
    (by simp [wPolM4]) (by simp [wPolM4])

theorem pick_ok_mem (cluster : List NodeSnapshot) (now ttl : Int)
    (auth : Option AuthRecord) (pols : String → Option ModelPolicy)
    (lat : Option (List (String × NodeLatency))) (modelID : String)
    (g : ModelGate) (pn : PickedNode) (mode : PickMode) (g1 : ModelGate)
    (h : pickNodeForModel cluster now ttl auth pols lat modelID g =
      (Except.ok (pn, mode), g1)) :
    ∃ n ∈ pickSnap cluster now ttl auth,
      pn.nodeID = n.nodeID ∧ pn.dataPlaneURL = n.dataPlaneURL ∧ n.dataPlaneURL ≠ "" := by
  unfold pickNodeForModel at h
  by_cases hacl : aclDeniedFor auth modelID = true
  · rw [if_pos hacl] at h
    simp at h
  · rw [if_neg hacl] at h
    simp only [] at h
    split at h
    next best heq =>
      obtain ⟨hout, -⟩ := Prod.mk.injEq .. ▸ h
      obtain ⟨hpn, -⟩ := Prod.mk.injEq .. ▸ (Except.ok.inj hout)
      subst hpn
      by_cases hemp : (readyNodesFor (pickSnap cluster now ttl auth) modelID).isEmpty
      · rw [if_pos hemp] at heq
        exact absurd heq (by simp)
      · rw [if_neg hemp] at heq
        have hmem := pickBestByScore_mem lat (getPolicyOrZero pols modelID) _ best heq
        obtain ⟨hsnap, hcond⟩ := List.mem_filter.1 hmem
        refine ⟨best, hsnap, rfl, rfl, ?_⟩
        simpa using (of_decide_eq_true hcond).1
    next heq =>
      split at h
      next n heqf =>
        obtain ⟨hout, -⟩ := Prod.mk.injEq .. ▸ h
        obtain ⟨hpn, -⟩ := Prod.mk.injEq .. ▸ (Except.ok.inj hout)
        subst hpn
        by_cases hln : g.loadingNode ≠ ""
        · rw [if_pos hln] at heqf
          have hmem := List.mem_of_find?_eq_some heqf
          have hpred := List.find?_some heqf
          refine ⟨n, hmem, rfl, rfl, ?_⟩
          simpa using (of_decide_eq_true hpred).2
        · rw [if_neg hln] at heqf
          exact absurd heqf (by simp)
      next heqf =>
        split at h
        next heqb => simp at h
        next best heqb =>
          obtain ⟨hout, -⟩ := Prod.mk.injEq .. ▸ h
          obtain ⟨hpn, -⟩ := Prod.mk.injEq .. ▸ (Except.ok.inj hout)
          subst hpn
          have hmem := pickBestByScore_mem lat (getPolicyOrZero pols modelID) _ best heqb
          obtain ⟨hsnap, hcond⟩ := List.mem_filter.1 hmem
          refine ⟨best, hsnap, rfl, rfl, ?_⟩
          simpa using hcond

theorem pickSnap_sublist (cluster : List NodeSnapshot) (now ttl : Int)
    (auth : Option AuthRecord) :
    (pickSnap cluster now ttl auth).Sublist cluster := by
  unfold pickSnap snapshotOnline
  cases auth with
  | none => exact List.filter_sublist cluster
  | some a => exact (List.filter_sublist _).trans (List.filter_sublist cluster)

theorem mem_pickSnap_online (cluster : List NodeSnapshot) (now ttl : Int)
    (auth : Option AuthRecord) (n : NodeSnapshot)
    (h : n ∈ pickSnap cluster now ttl auth) :
    n ∈ cluster ∧ now - n.lastHeartbeat ≤ ttl := by
  unfold pickSnap snapshotOnline at h
  cases auth with
  | none =>
    obtain ⟨hm, hc⟩ := List.mem_filter.1 h
    exact ⟨hm, by simpa using hc⟩
  | some a =>
    obtain ⟨hm, -⟩ := List.mem_filter.1 h
    obtain ⟨hm2, hc2⟩ := List.mem_filter.1 hm
    exact ⟨hm2, by simpa using hc2⟩

theorem find?_eq_some_of_unique {α : Type} (p : α → Bool) (b : α) :
    ∀ l : List α, b ∈ l → p b = true → (∀ x ∈ l, p x = true → x = b) →
      l.find? p = some b
  | [], hb, _, _ => absurd hb (List.not_mem_nil b)
  | a :: t, hb, hpb, huniq => by
    by_cases hpa : p a = true
    · have : a = b := huniq a (List.mem_cons_self a t) hpa
      rw [List.find?_cons_of_pos _ hpa, this]
    · rw [List.find?_cons_of_neg _ (by simpa using hpa)]
      have hbt : b ∈ t := by
        rcases List.mem_cons.1 hb with h | h
        · exact absurd (h ▸ hpb) (by rw [h] at hpb; exact absurd hpb hpa)
        · exact h
      exact find?_eq_some_of_unique p b t hbt hpb
        (fun x hx hpx => huniq x (List.mem_cons.2 (Or.inr hx)) hpx)

theorem pick_ready_branch (cluster : List NodeSnapshot) (now ttl : Int)
    (auth : Option AuthRecord) (pols : String → Option ModelPolicy)
    (lat : Option (List (String × NodeLatency))) (modelID : String)
    (g : ModelGate) (pn : PickedNode) (mode : PickMode) (g1 : ModelGate)
    (h : pickNodeForModel cluster now ttl auth pols lat modelID g =
      (Except.ok (pn, mode), g1))
    (hne : readyNodesFor (pickSnap cluster now ttl auth) modelID ≠ []) :
    mode = PickMode.direct ∧
      ∃ n ∈ readyNodesFor (pickSnap cluster now ttl auth) modelID,
        pn.nodeID = n.nodeID := by
  unfold pickNodeForModel at h
  by_cases hacl : aclDeniedFor auth modelID = true
  · rw [if_pos hacl] at h
    simp at h
  · rw [if_neg hacl] at h
    simp only [] at h
    have hemp : (readyNodesFor (pickSnap cluster now ttl auth) modelID).isEmpty = false := by
      simpa [List.isEmpty_iff] using hne
    split at h
    next best heq =>
      rw [if_neg (by simp [hemp])] at heq
      obtain ⟨hout, -⟩ := Prod.mk.injEq .. ▸ h
      obtain ⟨hpn, hmode⟩ := Prod.mk.injEq .. ▸ (Except.ok.inj hout)
      subst hpn
      exact ⟨hmode.symm, best,
        pickBestByScore_mem lat (getPolicyOrZero pols modelID) _ best heq, rfl⟩
    next heq =>
      exfalso
      rw [if_neg (by simp [hemp])] at heq
      exact hne ((pickBestByScore_none_iff lat (getPolicyOrZero pols modelID) _).1 heq)

def staleNode : NodeSnapshot :=
  { nodeID := "s", version := "1", llamaBaseURL := "http://ls", dataPlaneURL := "http://ds",
    lastHeartbeat := 0, ramTotalBytes := 4096, ramAvailBytes := 4096,
    inflightRequests := 0, models := [wResM4] }

/-- C6 counterexample: a worker whose heartbeat is far older than the
offline TTL (router default 5 s) is excluded from the online snapshot,
yet the planner TTL pass still issues an unload command to it, because
Planner.tick iterates the unfiltered Snapshot. -/
theorem planner_unloads_stale_worker :
    121000 - staleNode.lastHeartbeat > 5000 ∧
      snapshotOnline [staleNode] 121000 5000 = [] ∧
      ({ nodeID := "s", modelID := "m4", reason := "ttl" } : UnloadCmd) ∈
        tickTTL wPolsM4 121000 [staleNode] := by
  refine ⟨by norm_num [staleNode], by simp [snapshotOnline, staleNode], ?_⟩
  simp [tickTTL, staleNode, ttlEntry, wResM4, wPolsM4, wPolM4]

/-- C6 amended: workers whose heartbeat is older than the offline TTL are
excluded from every placement candidate set (any worker pickNodeForModel
returns is a cluster member with a fresh heartbeat and a non-empty
data-plane URL), but the planner passes run on the unfiltered snapshot and
can issue unload commands to stale workers. -/
theorem pick_only_returns_online_workers (cluster : List NodeSnapshot)
    (now ttl : Int) (auth : Option AuthRecord) (pols : String → Option ModelPolicy)
    (lat : Option (List (String × NodeLatency))) (modelID : String)
    (g : ModelGate) (pn : PickedNode) (mode : PickMode) (g1 : ModelGate)
    (h : pickNodeForModel cluster now ttl auth pols lat modelID g =
      (Except.ok (pn, mode), g1)) :
    ∃ n ∈ cluster, now - n.lastHeartbeat ≤ ttl ∧
      pn.nodeID = n.nodeID ∧ pn.dataPlaneURL = n.dataPlaneURL ∧ n.dataPlaneURL ≠ "" := by
  obtain ⟨n, hmem, h1, h2, h3⟩ :=
    pick_ok_mem cluster now ttl auth pols lat modelID g pn mode g1 h
  obtain ⟨hc, hon⟩ := mem_pickSnap_online cluster now ttl auth n hmem
  exact ⟨n, hc, hon, h1, h2, h3⟩

theorem pick_only_returns_online_workers_witness :
    ∃ n ∈ [wNodeA], (1000 : Int) - n.lastHeartbeat ≤ 5000 ∧
      ({ nodeID := "a", dataPlaneURL := "http://da" } : PickedNode).nodeID = n.nodeID ∧
      ({ nodeID := "a", dataPlaneURL := "http://da" } : PickedNode).dataPlaneURL =
        n.dataPlaneURL ∧ n.dataPlaneURL ≠ "" :=
  pick_only_returns_online_workers [wNodeA] 1000 5000 none (fun _ => none) none "m"
    ModelGate.initial { nodeID := "a", dataPlaneURL := "http://da" } PickMode.direct
    { loadingNode := "a", generation := 0 } (by rfl)

theorem readyNodesFor_nil (cluster : List NodeSnapshot) (now ttl : Int)
    (auth : Option AuthRecord) (modelID : String)
    (hnoready : ∀ n ∈ cluster, nodeReadyFor modelID n = false) :
    readyNodesFor (pickSnap cluster now ttl auth) modelID = [] := by
  unfold readyNodesFor
  rw [List.filter_eq_nil_iff]
  intro n hn
  have hfalse := hnoready n ((pickSnap_sublist cluster now ttl auth).subset hn)
  simp [hfalse]

theorem snap_ids_nodup (cluster : List NodeSnapshot) (now ttl : Int)
    (auth : Option AuthRecord) (hnodup : (cluster.map (·.nodeID)).Nodup) :
    ((pickSnap cluster now ttl auth).map (·.nodeID)).Nodup :=
  hnodup.sublist ((pickSnap_sublist cluster now ttl auth).map (·.nodeID))

theorem pick_wait_of_loading (cluster : List NodeSnapshot) (now ttl : Int)
    (auth : Option AuthRecord) (pols : String → Option ModelPolicy)
    (lat : Option (List (String × NodeLatency))) (modelID : String)
    (hnoready : ∀ n ∈ cluster, nodeReadyFor modelID n = false)
    (hnodup : (cluster.map (·.nodeID)).Nodup)
    (hacl : aclDeniedFor auth modelID = false)
    (b : NodeSnapshot) (hb : b ∈ pickSnap cluster now ttl auth)
    (hurl : b.dataPlaneURL ≠ "") (hnid : b.nodeID ≠ "")
    (g : ModelGate) (hg : g.loadingNode = b.nodeID) :
    pickNodeForModel cluster now ttl auth pols lat modelID g =
      (Except.ok ({ nodeID := b.nodeID, dataPlaneURL := b.dataPlaneURL },
        PickMode.wait), g) := by
  unfold pickNodeForModel
  rw [if_neg (by simp [hacl])]
  simp only []
  have hready := readyNodesFor_nil cluster now ttl auth modelID hnoready
  rw [show (if (readyNodesFor (pickSnap cluster now ttl auth) modelID).isEmpty then
      (none : Option NodeSnapshot)
    else pickBestByScore (readyNodesFor (pickSnap cluster now ttl auth) modelID) lat
      (getPolicyOrZero pols modelID)) = none from by rw [hready]; simp]
  have hfind : (pickSnap cluster now ttl auth).find?
      (fun n => n.nodeID = g.loadingNode ∧ n.dataPlaneURL ≠ "") = some b := by
    apply find?_eq_some_of_unique _ b _ hb
    · simp [hg, hurl]
    · intro x hx hpx
      have hdx := of_decide_eq_true hpx
      have hxid : x.nodeID = b.nodeID := by rw [← hg]; exact hdx.1
      exact eq_of_mem_same_nodeID (pickSnap cluster now ttl auth)
        (snap_ids_nodup cluster now ttl auth hnodup) hx hb hxid
  rw [show (if g.loadingNode ≠ "" then
      (pickSnap cluster now ttl auth).find?
        (fun n => n.nodeID = g.loadingNode ∧ n.dataPlaneURL ≠ "")
    else none) = some b from by rw [if_pos (by rw [hg]; exact hnid)]; exact hfind]

/-- C2: for a model with no READY residency anywhere, a pick starting from
an empty gate designates exactly one loading node (the chosen worker) and
returns DIRECT; every later pick while that designation stands returns the
same worker in WAIT mode and leaves the gate untouched, so at most one
worker is ever recorded as loading_node; NotifyModelState clears the
designation and swaps the notify channel (waking all current waiters)
exactly when the reported state is READY and ignores every other state. -/
theorem gate_coalescing_invariant (cluster : List NodeSnapshot) (now ttl : Int)
    (auth : Option AuthRecord) (pols : String → Option ModelPolicy)
    (lat : Option (List (String × NodeLatency))) (modelID : String)
    (hnoready : ∀ n ∈ cluster, nodeReadyFor modelID n = false)
    (hnodup : (cluster.map (·.nodeID)).Nodup)
    (hids : ∀ n ∈ cluster, n.nodeID ≠ "")
    (g0 : ModelGate) (h0 : g0.loadingNode = "")
    (pn : PickedNode) (mode : PickMode) (g1 : ModelGate)
    (h : pickNodeForModel cluster now ttl auth pols lat modelID g0 =
      (Except.ok (pn, mode), g1)) :
    mode = PickMode.direct ∧
      g1 = { loadingNode := pn.nodeID, generation := g0.generation } ∧
      pn.nodeID ≠ "" ∧
      (∀ g : ModelGate, g.loadingNode = pn.nodeID →
        pickNodeForModel cluster now ttl auth pols lat modelID g =
          (Except.ok (pn, PickMode.wait), g)) ∧
      (∀ g : ModelGate, notifyModelState ModelState.ready g =
        { loadingNode := "", generation := g.generation + 1 }) ∧
      (∀ (g : ModelGate) (st : ModelState), st ≠ ModelState.ready →
        notifyModelState st g = g) := by
  have hready := readyNodesFor_nil cluster now ttl auth modelID hnoready
  by_cases hacl : aclDeniedFor auth modelID = true
  · rw [pickNodeForModel, if_pos hacl] at h
    simp at h
  · have hacl2 : aclDeniedFor auth modelID = false := by simpa using hacl
    rw [pickNodeForModel, if_neg hacl] at h
    simp only [] at h
    split at h
    next best heq =>
      exfalso
      rw [hready] at heq
      simp at heq
    next heq =>
      split at h
      next n heqf =>
        exfalso
        rw [if_neg (by simp [h0])] at heqf
        exact absurd heqf (by simp)
      next heqf =>
        split at h
        next heqb => simp at h
        next best heqb =>
          obtain ⟨hout, hg1⟩ := Prod.mk.injEq .. ▸ h
          obtain ⟨hpn, hmode⟩ := Prod.mk.injEq .. ▸ (Except.ok.inj hout)
          subst hpn
          have hmem := pickBestByScore_mem lat (getPolicyOrZero pols modelID) _ best heqb
          obtain ⟨hsnap, hcond⟩ := List.mem_filter.1 hmem
          have hurl : best.dataPlaneURL ≠ "" := by simpa using hcond
          have hclus : best ∈ cluster :=
            (pickSnap_sublist cluster now ttl auth).subset hsnap
          have hnid : best.nodeID ≠ "" := hids best hclus
          refine ⟨hmode.symm, ?_, hnid, ?_, ?_, ?_⟩
          · rw [← hg1]
          · intro g hg
            exact pick_wait_of_loading cluster now ttl auth pols lat modelID
              hnoready hnodup hacl2 best hsnap hurl hnid g hg
          · intro g
            simp [notifyModelState, notifyModelReady]
          · intro g st hst
            simp [notifyModelState, hst]

theorem gate_coalescing_invariant_witness :
    ({ loadingNode := "a", generation := 0 } : ModelGate) =
      { loadingNode := ({ nodeID := "a", dataPlaneURL := "http://da" } : PickedNode).nodeID,
        generation := ModelGate.initial.generation } :=
  (gate_coalescing_invariant [wNodeA] 1000 5000 none (fun _ => none) none "m"
    (by decide) (by decide) (by decide) ModelGate.initial rfl
    { nodeID := "a", dataPlaneURL := "http://da" } PickMode.direct
    { loadingNode := "a", generation := 0 } (by rfl)).2.1

/-- C1 counterexample: a cold start.  One online worker with a data-plane
URL and no residency at all: the handler forwards DIRECT (no gate wait)
although no worker has the model READY, so the forward is not preceded by
a READY observation. -/
theorem coldStart_direct_forwards_without_ready :
    (handleChatCompletions [wNodeA] 1000 5000 none (fun _ => none) none "m"
        ModelGate.initial []).1 =
      HandleOutcome.forward "a" "http://da" false ∧
      (∀ n ∈ ([wNodeA] : List NodeSnapshot), nodeReadyFor "m" n = false) := by
  constructor
  · rfl
  · decide

/-- C1 amended: a forward in WAIT mode is preceded by an observation of
the model READY on the chosen worker (the gate wait succeeded), and a
DIRECT forward targets a READY worker whenever at least one online,
URL-bearing worker had the model READY at pick time; but the cold-start
path (no such worker) returns DIRECT and forwards with no READY
observation, implicitly triggering the load. -/
theorem forward_ready_guarantees (cluster : List NodeSnapshot) (now ttl : Int)
    (auth : Option AuthRecord) (pols : String → Option ModelPolicy)
    (lat : Option (List (String × NodeLatency))) (modelID : String)
    (g : ModelGate) (obs : List (List NodeSnapshot))
    (out : HandleOutcome) (g1 : ModelGate)
    (h : handleChatCompletions cluster now ttl auth pols lat modelID g obs = (out, g1))
    (nodeID url : String) (waited : Bool)
    (hout : out = HandleOutcome.forward nodeID url waited) :
    (waited = true → waitModelReady cluster obs modelID nodeID = true) ∧
      (readyNodesFor (pickSnap cluster now ttl auth) modelID ≠ [] →
        ∃ n ∈ readyNodesFor (pickSnap cluster now ttl auth) modelID,
          nodeID = n.nodeID) := by
  subst hout
  unfold handleChatCompletions at h
  split at h
  next e g2 heq =>
    obtain ⟨hfst, -⟩ := Prod.mk.injEq .. ▸ h
    exact absurd hfst (by simp)
  next node mode g2 heq =>
    cases mode with
    | wait =>
      simp only [] at h
      split at h
      next hw =>
        obtain ⟨hfst, -⟩ := Prod.mk.injEq .. ▸ h
        injection hfst with hnid hurl
        constructor
        · intro _
          rw [← hnid]
          exact hw
        · intro hne
          exfalso
          obtain ⟨hmode, -⟩ :=
            pick_ready_branch cluster now ttl auth pols lat modelID g node
              PickMode.wait g2 heq hne
          exact absurd hmode (by simp)
      next hw =>
        obtain ⟨hfst, -⟩ := Prod.mk.injEq .. ▸ h
        exact absurd hfst (by simp)
    | direct =>
      obtain ⟨hfst, -⟩ := Prod.mk.injEq .. ▸ h
      injection hfst with hnid hurl hwaited
      constructor
      · intro hwt
        rw [← hwaited] at hwt
        exact absurd hwt (by simp)
      · intro hne
        obtain ⟨-, n, hmem, hid⟩ :=
          pick_ready_branch cluster now ttl auth pols lat modelID g node
            PickMode.direct g2 heq hne
        exact ⟨n, hmem, by rw [← hnid]; exact hid⟩

def wReadyRes : ModelResidency :=
  { modelID := "m", state := ModelState.ready, loadedSince := 10, lastSeen := 20 }

def wNodeF : NodeSnapshot :=
  { nodeID := "f", version := "1", llamaBaseURL := "http://lf", dataPlaneURL := "http://df",
    lastHeartbeat := 0, ramTotalBytes := 4096, ramAvailBytes := 4096,
    inflightRequests := 0, models := [wReadyRes] }

theorem forward_ready_guarantees_witness :
    (false = true →
      waitModelReady [wNodeF] [] "m" "f" = true) ∧
      (readyNodesFor (pickSnap [wNodeF] 1000 5000 none) "m" ≠ [] →
        ∃ n ∈ readyNodesFor (pickSnap [wNodeF] 1000 5000 none) "m", "f" = n.nodeID) :=
  forward_ready_guarantees [wNodeF] 1000 5000 none (fun _ => none) none "m"
    ModelGate.initial [] (HandleOutcome.forward "f" "http://df" false) ModelGate.initial
    (by rfl) "f" "http://df" false rfl

/- ### Order-theoretic view of the pressure-pass comparator -/

/-- The sort key realized by candLess: priority, then a tag putting
zero loaded-since entries last, then loaded-since, then (only among the
zero entries) the model id. -/
def candKey (c : Cand) : Int ×ₗ (ℕ ×ₗ (Int ×ₗ String)) :=
  toLex (c.score, toLex
    ((if c.loadedSince = 0 then 1 else 0 : ℕ), toLex
      ((if c.loadedSince = 0 then 0 else c.loadedSince), 
       (if c.loadedSince = 0 then c.modelID else ""))))

theorem candLess_iff_keyLt (i j : Cand) :
    candLess i j = true ↔ candKey i < candKey j := by
  unfold candLess candKey
  rw [Prod.Lex.lt_iff]
  simp only [Prod.Lex.lt_iff]
  by_cases hs : i.score = j.score
  · rw [if_neg (by simp [hs])]
    by_cases hi : i.loadedSince = 0 <;> by_cases hj : j.loadedSince = 0
    · simp [hi, hj, hs, lt_irrefl]
    · simp [hi, hj, hs]
    · simp [hi, hj, hs]
    · simp only [hi, hj, if_false, if_true, ite_false, ite_true]
      constructor
      · intro h
        have hlt : i.loadedSince < j.loadedSince := by
          simpa [hi, hj] using h
        exact Or.inr ⟨hs, Or.inr ⟨by trivial, Or.inl hlt⟩⟩
      · rintro (h | ⟨-, h | ⟨-, h | ⟨h1, h2⟩⟩⟩)
        · exact absurd hs (by omega)
        · exact absurd h (by omega)
        · simp [hi, hj, h]
        · exact absurd h2 (lt_irrefl "")
  · rw [if_pos (by simp [hs])]
    constructor
    · intro h
      exact Or.inl (by simpa using h)
    · rintro (h | ⟨heq, -⟩)
      · simpa using h
      · exact absurd heq hs

theorem candLE_iff_keyLE (a b : Cand) : candLE a b ↔ candKey a ≤ candKey b := by
  unfold candLE
  rw [← not_lt]
  constructor
  · intro h hk
    have := (candLess_iff_keyLt b a).2 hk
    rw [h] at this
    exact absurd this (by simp)
  · intro h
    by_cases hb : candLess b a = true
    · exact absurd ((candLess_iff_keyLt b a).1 hb) h
    · simpa using hb

instance : IsTotal Cand candLE :=
  ⟨fun a b => by
    rw [candLE_iff_keyLE, candLE_iff_keyLE]
    exact le_total (candKey a) (candKey b)⟩

instance : IsTrans Cand candLE :=
  ⟨fun a b c hab hbc => by
    rw [candLE_iff_keyLE] at *
    exact le_trans hab hbc⟩

theorem sortCands_perm (l : List Cand) : (sortCands l).Perm l :=
  List.perm_insertionSort candLE l

theorem sortCands_sorted (l : List Cand) : List.Sorted candLE (sortCands l) :=
  List.sorted_insertionSort candLE l

/-- The Go-side estimate of bytes freed by a list of candidates. -/
def ramSum (l : List Cand) : Nat := (l.map (·.ramBytes)).sum

theorem issueLoop_spec (nodeID : String) (need : Nat) :
    ∀ (l : List Cand) (freed : Nat), freed < need →
      ∃ k ≤ l.length,
        issueLoop nodeID need freed l =
          (l.take k).map (fun c =>
            { nodeID := nodeID, modelID := c.modelID, reason := "pressure" }) ∧
        (∀ j < k, freed + ramSum (l.take j) < need) ∧
        (k < l.length → freed + ramSum (l.take k) ≥ need)
  | [], freed, _ => ⟨0, by simp [issueLoop]⟩
  | c :: cs, freed, hfreed => by
    by_cases hstop : freed + c.ramBytes ≥ need
    · refine ⟨1, by simp, ?_, ?_, ?_⟩
      · unfold issueLoop
        rw [if_pos hstop]
        simp
      · intro j hj
        interval_cases j
        simpa [ramSum] using hfreed
      · intro _
        simpa [ramSum] using hstop
    · push_neg at hstop
      obtain ⟨k, hk, hout, hpref, hstopc⟩ :=
        issueLoop_spec nodeID need cs (freed + c.ramBytes) hstop
      refine ⟨k + 1, by simpa using hk, ?_, ?_, ?_⟩
      · unfold issueLoop
        rw [if_neg (by omega), hout]
        simp
      · intro j hj
        cases j with
        | zero => simpa [ramSum] using hfreed
        | succ j2 =>
          have := hpref j2 (by omega)
          simp only [List.take_succ_cons, ramSum, List.map_cons, List.sum_cons] at *
          omega
      · intro hlt
        have := hstopc (by simpa using hlt)
        simp only [List.take_succ_cons, ramSum, List.map_cons, List.sum_cons] at *
        omega

/-- The candidate record handlePressure builds for a residency (priority
and RAM estimate default to zero when no policy row exists). -/
def candOf (pols : String → Option ModelPolicy) (m : ModelResidency) : Cand :=
  match pols m.modelID with
  | some pol =>
    { modelID := m.modelID, score := pol.priority,
      loadedSince := m.loadedSince, ramBytes := pol.ramRequiredBytes }
  | none =>
    { modelID := m.modelID, score := 0, loadedSince := m.loadedSince, ramBytes := 0 }

theorem mem_buildCands_iff (pols : String → Option ModelPolicy) (n : NodeSnapshot)
    (c : Cand) :
    c ∈ buildCands pols n ↔
      ∃ m ∈ n.models, m.state = ModelState.ready ∧
        (∀ pol, pols m.modelID = some pol → pol.pinned = false) ∧
        c = candOf pols m := by
  unfold buildCands
  rw [List.mem_filterMap]
  constructor
  · rintro ⟨m, hm, he⟩
    by_cases hst : m.state = ModelState.ready
    · rw [if_neg (by simp [hst])] at he
      split at he
      next pol hp =>
        by_cases hpin : pol.pinned = true
        · rw [if_pos hpin] at he
          exact absurd he (by simp)
        · rw [if_neg hpin] at he
          refine ⟨m, hm, hst, ?_, ?_⟩
          · intro pol2 hpol2
            rw [hp] at hpol2
            cases Option.some.inj hpol2
            simpa using hpin
          · simp only [candOf, hp]
            exact (Option.some.inj he).symm
      next hp =>
        refine ⟨m, hm, hst, fun pol hpol => absurd (hp ▸ hpol) (by simp), ?_⟩
        simp only [candOf, hp]
        exact (Option.some.inj he).symm
    · rw [if_pos (by simp [hst])] at he
      exact absurd he (by simp)
  · rintro ⟨m, hm, hst, hpin, hc⟩
    refine ⟨m, hm, ?_⟩
    rw [if_neg (by simp [hst])]
    split
    next pol hp =>
      rw [if_neg (by simp [hpin pol hp])]
      rw [hc]
      simp only [candOf, hp]
    next hp =>
      rw [hc]
      simp only [candOf, hp]

/-- C4 amended: under RAM pressure with positive need, the eviction
candidates are exactly the READY, non-pinned residencies; they are
ordered by the comparator candLess -- priority ascending, then oldest
non-zero loaded_since first, entries with zero loaded_since last and
tie-broken by model id only among themselves (candidates with equal
priority and equal non-zero loaded_since are incomparable and keep an
unspecified relative order) -- and unload commands are issued for the
shortest sorted prefix whose accumulated ram_required reaches the need
(all candidates if it never does). -/
theorem handlePressure_amended_spec (pols : String → Option ModelPolicy)
    (n : NodeSnapshot) (need : Nat) (hneed : 0 < need) :
    (∀ c, c ∈ buildCands pols n ↔
      ∃ m ∈ n.models, m.state = ModelState.ready ∧
        (∀ pol, pols m.modelID = some pol → pol.pinned = false) ∧
        c = candOf pols m) ∧
      (sortCands (buildCands pols n)).Perm (buildCands pols n) ∧
      List.Sorted candLE (sortCands (buildCands pols n)) ∧
      ∃ k ≤ (sortCands (buildCands pols n)).length,
        handlePressure pols n need =
          ((sortCands (buildCands pols n)).take k).map (fun c =>
            { nodeID := n.nodeID, modelID := c.modelID, reason := "pressure" }) ∧
        (∀ j < k, ramSum ((sortCands (buildCands pols n)).take j) < need) ∧
        (k < (sortCands (buildCands pols n)).length →
          ramSum ((sortCands (buildCands pols n)).take k) ≥ need) := by
  refine ⟨fun c => mem_buildCands_iff pols n c, sortCands_perm _, sortCands_sorted _, ?_⟩
  obtain ⟨k, hk, hout, hpref, hstop⟩ :=
    issueLoop_spec n.nodeID need (sortCands (buildCands pols n)) 0 hneed
  exact ⟨k, hk, hout, by simpa using hpref, by simpa using hstop⟩

theorem handlePressure_amended_spec_witness :
    0 < 100 ∧
      (sortCands (buildCands (fun _ => none) staleNode)).Perm
        (buildCands (fun _ => none) staleNode) :=
  ⟨by norm_num,
    (handlePressure_amended_spec (fun _ => none) staleNode 100 (by norm_num)).2.1⟩

def cexResB : ModelResidency :=
  { modelID := "b", state := ModelState.ready, loadedSince := 5, lastSeen := 0 }

def cexResA : ModelResidency :=
  { modelID := "a", state := ModelState.ready, loadedSince := 5, lastSeen := 0 }

def cexNode : NodeSnapshot :=
  { nodeID := "x", version := "1", llamaBaseURL := "http://lx", dataPlaneURL := "http://dx",
    lastHeartbeat := 0, ramTotalBytes := 4096, ramAvailBytes := 1024,
    inflightRequests := 0, models := [cexResB, cexResA] }

/-- C4 counterexample: two READY, non-pinned residencies with equal
priority and equal non-zero loaded_since.  The comparator orders them in
neither direction (the model-id tiebreak only applies when both
loaded_since are zero), so with the residency map iterated in the order
[b, a] the unloads are issued as [b, a] -- not in the
lexicographically-lower-model-id-first order [a, b] the claim requires. -/
theorem pressure_order_modelID_tiebreak_fails :
    candLess { modelID := "a", score := 0, loadedSince := 5, ramBytes := 0 }
        { modelID := "b", score := 0, loadedSince := 5, ramBytes := 0 } = false ∧
      candLess { modelID := "b", score := 0, loadedSince := 5, ramBytes := 0 }
        { modelID := "a", score := 0, loadedSince := 5, ramBytes := 0 } = false ∧
      ("a" : String) < "b" ∧
      handlePressure (fun _ => none) cexNode 100 =
        [{ nodeID := "x", modelID := "b", reason := "pressure" },
         { nodeID := "x", modelID := "a", reason := "pressure" }] ∧
      handlePressure (fun _ => none) cexNode 100 ≠
        [{ nodeID := "x", modelID := "a", reason := "pressure" },
         { nodeID := "x", modelID := "b", reason := "pressure" }] := by
  refine ⟨by decide, by decide, ?_, by decide, by decide⟩
  rw [String.lt_iff_toList_lt]
  decide

theorem lowerLE_iff (a b : String) : lowerLE a b ↔ a.toLower ≤ b.toLower := by
  unfold lowerLE lowerLess
  rw [decide_eq_false_iff_not, not_lt]

instance : IsTotal String lowerLE :=
  ⟨fun a b => by
    rw [lowerLE_iff, lowerLE_iff]
    exact le_total a.toLower b.toLower⟩

instance : IsTrans String lowerLE :=
  ⟨fun a b c hab hbc => by
    rw [lowerLE_iff] at *
    exact le_trans hab hbc⟩

/-- C9 amended: GET /v1/models returns object "list" whose data ids are
the distinct union of residency keys across ALL known workers (no
heartbeat-freshness filter), sorted case-insensitively, each entry
carrying object "model", owned_by "llm-router" and the current unix
time. -/
theorem handleModels_amended_spec (nodes : List NodeSnapshot) (now : Int) :
    (handleModels nodes now).object = "list" ∧
      (∀ id, id ∈ (handleModels nodes now).data.map (·.id) ↔
        ∃ n ∈ nodes, ∃ m ∈ n.models, m.modelID = id) ∧
      ((handleModels nodes now).data.map (·.id)).Nodup ∧
      List.Sorted lowerLE ((handleModels nodes now).data.map (·.id)) ∧
      ∀ e ∈ (handleModels nodes now).data,
        e.object = "model" ∧ e.ownedBy = "llm-router" ∧ e.created = now := by
  have hids : (handleModels nodes now).data.map (·.id) =
      List.insertionSort lowerLE
        ((nodes.flatMap (fun n => n.models.map (·.modelID))).dedup) := by
    simp only [handleModels, List.map_map]
    exact List.map_id _ ▸ rfl
  refine ⟨rfl, ?_, ?_, ?_, ?_⟩
  · intro id
    rw [hids, (List.perm_insertionSort lowerLE _).mem_iff, List.mem_dedup,
      List.mem_flatMap]
    constructor
    · rintro ⟨n, hn, hm⟩
      obtain ⟨m, hm2, he⟩ := List.mem_map.1 hm
      exact ⟨n, hn, m, hm2, he⟩
    · rintro ⟨n, hn, m, hm2, he⟩
      exact ⟨n, hn, List.mem_map.2 ⟨m, hm2, he⟩⟩
  · rw [hids]
    exact ((List.perm_insertionSort lowerLE _).nodup_iff).2 (List.nodup_dedup _)
  · rw [hids]
    exact List.sorted_insertionSort lowerLE _
  · intro e he
    simp only [handleModels] at he
    obtain ⟨id, -, he2⟩ := List.mem_map.1 he
    rw [← he2]
    exact ⟨rfl, rfl, rfl⟩

/-- C9 counterexample: a single worker holding model m4 whose heartbeat is
far older than the offline TTL.  The claim predicts an empty id set (no
fresh worker), but HandleModels aggregates over all known workers and
returns [m4]. -/
theorem models_includes_stale_worker :
    (1000000 : Int) - staleNode.lastHeartbeat > 5000 ∧
      (handleModels [staleNode] 77).data.map (·.id) = ["m4"] ∧
      modelsClaimFreshIDs [staleNode] 1000000 5000 = [] ∧
      (handleModels [staleNode] 77).data.map (·.id) ≠
        modelsClaimFreshIDs [staleNode] 1000000 5000 := by
  refine ⟨by norm_num [staleNode], by decide, by decide, by decide⟩
